import Mathlib

/-!
Verification development for the face-recognition engine of the
face-recognition-attendance repository.

The embedded code:
* `backend/ultra_robust_recognition.py` — class `UltraRobustFaceRecognition`:
  - `validate_recognition_with_consensus` (consensus validator),
  - `calculate_multi_metric_similarity` (per-family best-of-three similarity),
  - `recognize_face_from_image` (scan over the profile store),
  - `calculate_lbp` (local binary patterns),
* `backend/secure_face_recognition.py` — class `SecureFaceRecognition`:
  - `validate_face_quality` (quality gate),
  - `extract_enhanced_features` (gate short-circuit before extraction).

Python floats are modelled as elements of a linear ordered field (the
validator and the recognition scan are generic, so they can be read both
at `ℚ` for concrete evaluation and at `ℝ` where they consume the
similarity scores, which involve square roots).  NumPy `mean`/`var` are
the arithmetic mean and the population variance.
-/

/-- Confidence levels produced by `validate_recognition_with_consensus`:
the string values `'ERROR'`, `'REJECTED'`, `'MEDIUM'`, `'HIGH'`,
`'ULTRA_HIGH'` of the Python code. -/
inductive Tier where
  | ERROR
  | REJECTED
  | MEDIUM
  | HIGH
  | ULTRA_HIGH
deriving DecidableEq

/-- Rank of a confidence tier in the order
REJECTED < MEDIUM < HIGH < ULTRA_HIGH (with the `'ERROR'` level of the
empty-similarity branch at the bottom). -/
def Tier.rank : Tier → ℕ
  | .ERROR => 0
  | .REJECTED => 1
  | .MEDIUM => 2
  | .HIGH => 3
  | .ULTRA_HIGH => 4

/-- Result dictionary of `validate_recognition_with_consensus`.  `overall`
is the `'overall_similarity'` entry, `consensusCount` the
`'consensus_count'` entry and `svar` the `'variance'` entry.  The branch
for empty similarity mappings returns a dictionary without these keys;
the caller reads them with `.get(…, 0.0)`, which we model by storing the
defaults `0` there. -/
structure ValidationResult (α : Type) where
  accept : Bool
  tier : Tier
  overall : α
  consensusCount : ℕ
  svar : α
deriving DecidableEq

variable {α : Type} [LinearOrderedField α]

/-- Number of similarity values clearing a threshold:
`sum(1 for sim in similarity_values if sim >= threshold)`. -/
def countGE (sims : List α) (t : α) : ℕ :=
  sims.countP fun s => decide (t ≤ s)

/-- Arithmetic mean, `np.mean` (division by zero yields `0` in a field,
matching that the code never takes the mean of an empty list). -/
def listMean (xs : List α) : α :=
  xs.sum / (xs.length : α)

/-- Population variance, `np.var`. -/
def listVariance (xs : List α) : α :=
  ((xs.map fun x => (x - listMean xs) ^ 2).sum) / (xs.length : α)

/-- `self.MIN_CONSENSUS_COUNT = 3`. -/
def MIN_CONSENSUS_COUNT : ℕ := 3

/-- Guard of the `'ULTRA_HIGH'` branch: at least 3 values clear the
`ULTRA_HIGH_THRESHOLD = 0.95`, the overall mean clears it, consensus is
achieved (`minimum_count >= MIN_CONSENSUS_COUNT` at the
`MINIMUM_THRESHOLD = 0.65`) and the variance is below
`MAX_VARIANCE = 0.15`. -/
abbrev ultraCond (sims : List α) : Prop :=
  3 ≤ countGE sims (95/100) ∧ 95/100 ≤ listMean sims ∧
    MIN_CONSENSUS_COUNT ≤ countGE sims (65/100) ∧ listVariance sims < 15/100

/-- Guard of the `'HIGH'` branch (`HIGH_THRESHOLD = 0.85`). -/
abbrev highCond (sims : List α) : Prop :=
  3 ≤ countGE sims (85/100) ∧ 85/100 ≤ listMean sims ∧
    MIN_CONSENSUS_COUNT ≤ countGE sims (65/100) ∧ listVariance sims < 15/100

/-- Guard of the `'MEDIUM'` branch (`MEDIUM_THRESHOLD = 0.75`, requiring
at least four values there). -/
abbrev mediumCond (sims : List α) : Prop :=
  4 ≤ countGE sims (75/100) ∧ 75/100 ≤ listMean sims ∧
    MIN_CONSENSUS_COUNT ≤ countGE sims (65/100) ∧ listVariance sims < 15/100

/-- `validate_recognition_with_consensus` on the list of per-family
similarity values (`similarity_values = list(similarities.values())`). -/
def validateConsensus (sims : List α) : ValidationResult α :=
  if sims.isEmpty then
    -- `if not similarities: return {'accept': False, …, 'confidence_level': 'ERROR'}`
    ⟨false, .ERROR, 0, 0, 0⟩
  else if ultraCond sims then
    ⟨true, .ULTRA_HIGH, listMean sims, countGE sims (65/100), listVariance sims⟩
  else if highCond sims then
    ⟨true, .HIGH, listMean sims, countGE sims (65/100), listVariance sims⟩
  else if mediumCond sims then
    ⟨true, .MEDIUM, listMean sims, countGE sims (65/100), listVariance sims⟩
  else
    ⟨false, .REJECTED, listMean sims, countGE sims (65/100), listVariance sims⟩

/-- Reasons of `recognize_face_from_image` results.  `noFeatures` is the
string `'Could not extract features from uploaded image'`, `noConsensus`
is `'No student passed ultra-robust validation'`.  The constructor
`noEnrolledProfiles` is modelled from the spec: the spec's error taxonomy
lists a `NoEnrolledProfiles` error for recognition against an empty
ProfileStore, but no corresponding reason exists anywhere in the code. -/
inductive RecReason where
  | noFeatures
  | noConsensus
  | noEnrolledProfiles
deriving DecidableEq

/-- Result dictionary of `recognize_face_from_image`.  `confidence` is
`overall_similarity * 100`; `bestRejected` holds the `student_id` and
validation of the `'best_rejected_match'` entry (absent keys are
modelled as `none`). -/
structure RecognitionOutcome (α : Type) where
  matchFound : Bool
  student : Option String
  confidence : α
  confidenceLevel : Option Tier
  reason : Option RecReason
  bestRejected : Option (String × ValidationResult α)
deriving DecidableEq

/-- One step of the best-accepted-candidate loop of
`recognize_face_from_image`:
`if validation['accept'] and (best_validation is None or
validation['overall_similarity'] > best_validation['overall_similarity'])`. -/
def scanStep (best : Option (String × ValidationResult α)) (c : String × List α) :
    Option (String × ValidationResult α) :=
  let v := validateConsensus c.2
  if v.accept && (match best with
      | none => true
      | some b => decide (b.2.overall < v.overall)) then
    some (c.1, v)
  else best

/-- One step of `max(all_results.items(), key=lambda x: x[1]['overall_similarity'])`:
Python's `max` keeps the first item among equals, replacing only on a
strictly greater key. -/
def bestRejStep (best : Option (String × ValidationResult α)) (c : String × List α) :
    Option (String × ValidationResult α) :=
  let v := validateConsensus c.2
  match best with
  | none => some (c.1, v)
  | some b => if b.2.overall < v.overall then some (c.1, v) else some b

/-- The no-match branch of `recognize_face_from_image`: reports the best
rejected candidate (or `None` when the store was empty) together with
the fixed reason string. -/
def rejectedOutcome (cands : List (String × List α)) : RecognitionOutcome α :=
  ⟨false, none, 0, none, some .noConsensus, cands.foldl bestRejStep none⟩

/-- The decision part of `recognize_face_from_image`, operating on the
per-candidate similarity-value lists in store order.  Note the Python
guard `if best_match and best_validation['accept']`: `best_match` is the
matched `student_id` string, and the empty string is falsy in Python, so
a best match with identity `""` falls into the no-match branch. -/
def recognizeScan (cands : List (String × List α)) : RecognitionOutcome α :=
  match cands.foldl scanStep none with
  | some (sid, v) =>
      if sid = "" then rejectedOutcome cands
      else ⟨true, some sid, v.overall * 100, some v.tier, none, none⟩
  | none => rejectedOutcome cands

/-- The five feature families of `extract_ultra_robust_features`
(`'lbp'`, `'gradient'`, `'regional'`, `'gabor'`, `'edges'`). -/
inductive FeatureFamily where
  | lbp
  | gradient
  | regional
  | gabor
  | edges
deriving DecidableEq

/-- A feature bundle: the per-student dict mapping family name to a
feature vector.  Extraction always produces all five families, but
stored dictionaries are deserialized from JSON, so a key can be absent;
absent keys are `none`. -/
structure FeatureBundle where
  lbp : Option (List ℝ)
  gradient : Option (List ℝ)
  regional : Option (List ℝ)
  gabor : Option (List ℝ)
  edges : Option (List ℝ)

/-- Dictionary lookup `features[feature_type]`. -/
def FeatureBundle.famGet (b : FeatureBundle) : FeatureFamily → Option (List ℝ)
  | .lbp => b.lbp
  | .gradient => b.gradient
  | .regional => b.regional
  | .gabor => b.gabor
  | .edges => b.edges

/-- The loop order `for feature_type in ['lbp', 'gradient', 'regional',
'gabor', 'edges']`. -/
def familyOrder : List FeatureFamily :=
  [.lbp, .gradient, .regional, .gabor, .edges]

/-- Sum of squares of a vector's entries. -/
def sumSq (v : List ℝ) : ℝ :=
  (v.map fun x => x ^ 2).sum

/-- Euclidean norm `np.linalg.norm`. -/
noncomputable def l2norm (v : List ℝ) : ℝ :=
  Real.sqrt (sumSq v)

/-- The normalization `f / (np.linalg.norm(f) + 1e-7)` at the start of
each family comparison. -/
noncomputable def normalizeVec (v : List ℝ) : List ℝ :=
  v.map fun x => x / (l2norm v + 1/10000000)

/-- Dot product `np.dot` of two equal-length vectors. -/
def dotList (a b : List ℝ) : ℝ :=
  ((a.zip b).map fun p => p.1 * p.2).sum

/-- Pointwise difference `f1 - f2` of two equal-length vectors. -/
def subList (a b : List ℝ) : List ℝ :=
  (a.zip b).map fun p => p.1 - p.2

/-- Pearson correlation coefficient `np.corrcoef(a, b)[0, 1]`:
covariance over the product of standard deviations.  With a zero
standard deviation NumPy produces NaN, which the code maps to `0.0`; in
Lean division by zero is already `0`, matching that branch. -/
noncomputable def pearson (a b : List ℝ) : ℝ :=
  (((a.zip b).map fun p => (p.1 - listMean a) * (p.2 - listMean b)).sum / (a.length : ℝ)) /
    (Real.sqrt (listVariance a) * Real.sqrt (listVariance b))

/-- Body of the per-family loop of `calculate_multi_metric_similarity`:
normalize both vectors, compute cosine similarity, inverse-euclidean
similarity and mapped correlation, and keep the best of the three. -/
noncomputable def familySimilarity (f1 f2 : List ℝ) : ℝ :=
  let n1 := normalizeVec f1
  let n2 := normalizeVec f2
  let cosineSim := dotList n1 n2
  let euclideanDist := l2norm (subList n1 n2)
  let euclideanSim := 1 / (1 + euclideanDist)
  let correlation := if 1 < f1.length then pearson n1 n2 else 0
  let correlationSim := (correlation + 1) / 2
  max cosineSim (max euclideanSim correlationSim)

/-- The families present in both bundles, in loop order, with their two
vectors (`if feature_type in features1 and feature_type in features2`). -/
def commonFamilies (b1 b2 : FeatureBundle) : List (FeatureFamily × List ℝ × List ℝ) :=
  familyOrder.filterMap fun fam =>
    match b1.famGet fam, b2.famGet fam with
    | some f1, some f2 => some (fam, f1, f2)
    | _, _ => none

/-- `calculate_multi_metric_similarity`.  When two vectors of a common
family have different lengths, `np.dot` raises a `ValueError`; the
surrounding `except` swallows it and the whole call returns the empty
dict, discarding any similarities already computed. -/
noncomputable def calculateMultiMetricSimilarity (b1 b2 : FeatureBundle) :
    List (FeatureFamily × ℝ) :=
  let pairs := commonFamilies b1 b2
  if pairs.any fun p => p.2.1.length != p.2.2.length then []
  else pairs.map fun p => (p.1, familySimilarity p.2.1 p.2.2)

/-- The spec's wording of the first metric: cosine similarity of the two
normalized vectors. -/
noncomputable def cosineOfNormalized (f1 f2 : List ℝ) : ℝ :=
  dotList (normalizeVec f1) (normalizeVec f2)

/-- The spec's wording of the second metric: the inverse-distance
similarity `1/(1+euclidean_distance)` of the two normalized vectors. -/
noncomputable def inverseDistanceSim (f1 f2 : List ℝ) : ℝ :=
  1 / (1 + l2norm (subList (normalizeVec f1) (normalizeVec f2)))

/-- The spec's wording of the third metric: Pearson correlation of the
normalized vectors mapped from [-1,1] to [0,1] (with the code's guard
that a vector of length at most one yields correlation `0.0`). -/
noncomputable def pearsonMapped (f1 f2 : List ℝ) : ℝ :=
  ((if 1 < f1.length then pearson (normalizeVec f1) (normalizeVec f2) else 0) + 1) / 2

/-- Layout compatibility of two bundles: the same families are present
and each common family has vectors of one common length. -/
def layoutMatches (b1 b2 : FeatureBundle) : Prop :=
  ∀ fam : FeatureFamily,
    match b1.famGet fam, b2.famGet fam with
    | some f1, some f2 => f1.length = f2.length
    | none, none => True
    | _, _ => False

/-- `recognize_face_from_image` after the temporary image was written:
`extracted` is the outcome of `extract_ultra_robust_features` on the
uploaded image (`none` when it failed), `store` is
`self.face_encodings.items()`. -/
noncomputable def recognizeFromImage (extracted : Option FeatureBundle)
    (store : List (String × FeatureBundle)) : RecognitionOutcome ℝ :=
  match extracted with
  | none => ⟨false, none, 0, none, some .noFeatures, none⟩
  | some probe =>
      recognizeScan (store.map fun p =>
        (p.1, (calculateMultiMetricSimilarity probe p.2).map Prod.snd))

/-- A grayscale image: dimensions `h, w = face_img.shape` and a pixel
function (pixels outside the rectangle are irrelevant). -/
structure GrayImage where
  h : ℕ
  w : ℕ
  pix : ℕ → ℕ → ℝ

/-- OpenCV's default `BORDER_REFLECT_101` index reflection used by
`cv2.Laplacian`: index `-1` maps to `1`, index `n` maps to `n-2`. -/
def reflect101 (n : ℕ) (i : ℤ) : ℕ :=
  if i < 0 then (-i).toNat
  else if (n : ℤ) ≤ i then (2 * ((n : ℤ) - 1) - i).toNat
  else i.toNat

/-- Pixel read with reflected border indices. -/
def lapSample (img : GrayImage) (i j : ℤ) : ℝ :=
  img.pix (reflect101 img.h i) (reflect101 img.w j)

/-- `cv2.Laplacian(face_img, cv2.CV_64F)` with the default 3×3 kernel
`[[0,1,0],[1,-4,1],[0,1,0]]` and reflected borders. -/
def laplacianImage (img : GrayImage) : GrayImage :=
  ⟨img.h, img.w, fun i j =>
    lapSample img ((i : ℤ) - 1) (j : ℤ) + lapSample img ((i : ℤ) + 1) (j : ℤ) +
      lapSample img (i : ℤ) ((j : ℤ) - 1) + lapSample img (i : ℤ) ((j : ℤ) + 1) -
      4 * lapSample img (i : ℤ) (j : ℤ)⟩

/-- Sum of a per-pixel quantity over the image rectangle. -/
noncomputable def imgSum (img : GrayImage) (f : ℕ → ℕ → ℝ) : ℝ :=
  ∑ i ∈ Finset.range img.h, ∑ j ∈ Finset.range img.w, f i j

/-- `np.mean` over all pixels. -/
noncomputable def imgMean (img : GrayImage) : ℝ :=
  imgSum img img.pix / (img.h * img.w : ℕ)

/-- `np.var` (population variance) over all pixels; `.var()` of the
Laplacian and `np.std` are taken from this. -/
noncomputable def imgVariance (img : GrayImage) : ℝ :=
  imgSum img (fun i j => (img.pix i j - imgMean img) ^ 2) / (img.h * img.w : ℕ)

/-- Messages of `validate_face_quality` (the code returns strings; only
their identity matters). -/
inductive QualityMessage where
  | emptyImage
  | faceTooSmall
  | tooBlurry
  | poorLighting
  | lowContrast
  | qualityTooLow
  | acceptable
deriving DecidableEq

/-- Return triple of `validate_face_quality`: `(is_valid, quality_score,
message)`. -/
structure QualityResult where
  valid : Bool
  score : ℝ
  message : QualityMessage

/-- `validate_face_quality` of `SecureFaceRecognition`: checks size
(`MIN_FACE_SIZE = 50`), sharpness (Laplacian variance against the blur
floor 100), mean brightness (band [30, 230]), contrast (`np.std` against
20) in this order, short-circuiting on the first failure, then forms the
quality score `min(1.0, lap_var/100 * 0.6 + contrast/50 * 0.4)` and
requires it to clear `FACE_QUALITY_THRESHOLD = 0.7`. -/
noncomputable def validateFaceQuality (img : GrayImage) : QualityResult :=
  if img.h * img.w = 0 then ⟨false, 0, .emptyImage⟩
  else if img.h < 50 ∨ img.w < 50 then ⟨false, 0, .faceTooSmall⟩
  else
    let lapVar := imgVariance (laplacianImage img)
    if lapVar < 100 then ⟨false, lapVar / 100, .tooBlurry⟩
    else
      let meanBrightness := imgMean img
      if meanBrightness < 30 ∨ 230 < meanBrightness then ⟨false, 1/2, .poorLighting⟩
      else
        let contrast := Real.sqrt (imgVariance img)
        if contrast < 20 then ⟨false, contrast / 20, .lowContrast⟩
        else
          let qualityScore := min 1 (lapVar / 100 * (6/10) + contrast / 50 * (4/10))
          if qualityScore < 7/10 then ⟨false, qualityScore, .qualityTooLow⟩
          else ⟨true, qualityScore, .acceptable⟩

/-- `extract_enhanced_features`: the quality gate runs first and a
failure returns `None` before any feature computation; `body` stands for
the feature computation on the (resized, equalized, blurred) crop, which
the gated control flow never reaches on failure. -/
noncomputable def extractEnhancedFeatures (body : GrayImage → List ℝ)
    (img : GrayImage) : Option (List ℝ) :=
  if (validateFaceQuality img).valid then some (body img) else none

/-- Python `int()`: truncation toward zero. -/
noncomputable def pyTrunc (x : ℝ) : ℤ :=
  if 0 ≤ x then ⌊x⌋ else ⌈x⌉

/-- `dx[p] = int(radius * cos(2*pi*p/n_points))` of `calculate_lbp`. -/
noncomputable def lbpDx (radius nPoints p : ℕ) : ℤ :=
  pyTrunc ((radius : ℝ) * Real.cos (2 * Real.pi * p / nPoints))

/-- `dy[p] = int(radius * sin(2*pi*p/n_points))` of `calculate_lbp`. -/
noncomputable def lbpDy (radius nPoints p : ℕ) : ℤ :=
  pyTrunc ((radius : ℝ) * Real.sin (2 * Real.pi * p / nPoints))

/-- `max(0, min(limit-1, i))`: the clamped neighbor coordinate. -/
def clampIdx (limit : ℕ) (i : ℤ) : ℕ :=
  (max 0 (min ((limit : ℤ) - 1) i)).toNat

/-- The n-bit neighbor pattern built by the inner loop of
`calculate_lbp` at pixel `(i, j)` of a `uint8` image (pixel values are
naturals): `pattern |= (1 << p)` whenever the sampled neighbor is at
least the center. -/
noncomputable def lbpPattern (img : ℕ → ℕ → ℕ) (rows cols radius nPoints i j : ℕ) : ℕ :=
  (List.range nPoints).foldl
    (fun pattern p =>
      let x := clampIdx rows ((i : ℤ) + lbpDx radius nPoints p)
      let y := clampIdx cols ((j : ℤ) + lbpDy radius nPoints p)
      if img i j ≤ img x y then pattern ||| (1 <<< p) else pattern)
    0

/-- The value actually stored by `lbp[i, j] = pattern`: the `lbp` array
has dtype `np.uint8`, so the assigned integer is reduced modulo 2^8. -/
noncomputable def lbpStored (img : ℕ → ℕ → ℕ) (rows cols radius nPoints i j : ℕ) : ℕ :=
  lbpPattern img rows cols radius nPoints i j % 2 ^ 8

/-- The full LBP image of `calculate_lbp`: interior pixels hold the
stored pattern code, the border stays at the `np.zeros` initial value.
Its values are what `np.histogram(lbp.ravel(), bins=256, range=(0,256))`
then histograms. -/
noncomputable def calculateLbp (img : ℕ → ℕ → ℕ) (rows cols radius nPoints : ℕ) :
    ℕ → ℕ → ℕ :=
  fun i j =>
    if radius ≤ i ∧ i < rows - radius ∧ radius ≤ j ∧ j < cols - radius then
      lbpStored img rows cols radius nPoints i j
    else 0

/-- Family-similarity values of a candidate: eight families at 0.9375
and two at 0 (mean 0.75, variance 9/64 < 0.15). -/
def monoLow : List ℚ :=
  [15/16, 15/16, 15/16, 15/16, 15/16, 15/16, 15/16, 15/16, 0, 0]

/-- The same candidate with every similarity raised pointwise: eight
families at 1 and two at 0 (mean 0.8, variance 4/25 ≥ 0.15). -/
def monoHigh : List ℚ :=
  [1, 1, 1, 1, 1, 1, 1, 1, 0, 0]

/-- Family-similarity values with mean 0.852 and tiny variance but only
two families clearing the HIGH threshold. -/
def steadyCand : List ℚ :=
  [21/25, 21/25, 21/25, 87/100, 87/100]

/-- Family-similarity values with the same mean 0.852, larger variance,
and three families clearing the HIGH threshold. -/
def spreadCand : List ℚ :=
  [9/10, 9/10, 9/10, 4/5, 19/25]

theorem validate_empty : validateConsensus ([] : List α) = ⟨false, .ERROR, 0, 0, 0⟩ := rfl

theorem validate_tier_of_ultraCond {sims : List α} (h : ultraCond sims)
    (hne : ¬ sims.isEmpty) :
    validateConsensus sims =
      ⟨true, .ULTRA_HIGH, listMean sims, countGE sims (65/100), listVariance sims⟩ := by
  unfold validateConsensus
  rw [if_neg (by simp [hne]), if_pos h]

theorem validate_tier_of_highCond {sims : List α} (hu : ¬ ultraCond sims)
    (h : highCond sims) (hne : ¬ sims.isEmpty) :
    validateConsensus sims =
      ⟨true, .HIGH, listMean sims, countGE sims (65/100), listVariance sims⟩ := by
  unfold validateConsensus
  rw [if_neg (by simp [hne]), if_neg hu, if_pos h]

theorem validate_tier_of_mediumCond {sims : List α} (hu : ¬ ultraCond sims)
    (hh : ¬ highCond sims) (h : mediumCond sims) (hne : ¬ sims.isEmpty) :
    validateConsensus sims =
      ⟨true, .MEDIUM, listMean sims, countGE sims (65/100), listVariance sims⟩ := by
  unfold validateConsensus
  rw [if_neg (by simp [hne]), if_neg hu, if_neg hh, if_pos h]

theorem validate_tier_of_rejected {sims : List α} (hu : ¬ ultraCond sims)
    (hh : ¬ highCond sims) (hm : ¬ mediumCond sims) (hne : ¬ sims.isEmpty) :
    validateConsensus sims =
      ⟨false, .REJECTED, listMean sims, countGE sims (65/100), listVariance sims⟩ := by
  unfold validateConsensus
  rw [if_neg (by simp [hne]), if_neg hu, if_neg hh, if_neg hm]

theorem validate_rejected_of_highvar {sims : List α}
    (h : ¬ listVariance sims < 15/100) (hne : ¬ sims.isEmpty) :
    (validateConsensus sims).tier = .REJECTED := by
  rw [validate_tier_of_rejected (fun hc => h hc.2.2.2) (fun hc => h hc.2.2.2)
    (fun hc => h hc.2.2.2) hne]

theorem rank_ge_one_of_nonempty {sims : List α} (hne : ¬ sims.isEmpty) :
    1 ≤ (validateConsensus sims).tier.rank := by
  by_cases hu : ultraCond sims
  · rw [validate_tier_of_ultraCond hu hne]; simp [Tier.rank]
  by_cases hh : highCond sims
  · rw [validate_tier_of_highCond hu hh hne]; simp [Tier.rank]
  by_cases hm : mediumCond sims
  · rw [validate_tier_of_mediumCond hu hh hm hne]; simp [Tier.rank]
  · rw [validate_tier_of_rejected hu hh hm hne]; simp [Tier.rank]

theorem rank_ge_two_of_mediumCond {sims : List α} (h : mediumCond sims)
    (hne : ¬ sims.isEmpty) : 2 ≤ (validateConsensus sims).tier.rank := by
  by_cases hu : ultraCond sims
  · rw [validate_tier_of_ultraCond hu hne]; simp [Tier.rank]
  by_cases hh : highCond sims
  · rw [validate_tier_of_highCond hu hh hne]; simp [Tier.rank]
  · rw [validate_tier_of_mediumCond hu hh h hne]; simp [Tier.rank]

theorem rank_ge_three_of_highCond {sims : List α} (h : highCond sims)
    (hne : ¬ sims.isEmpty) : 3 ≤ (validateConsensus sims).tier.rank := by
  by_cases hu : ultraCond sims
  · rw [validate_tier_of_ultraCond hu hne]; simp [Tier.rank]
  · rw [validate_tier_of_highCond hu h hne]; simp [Tier.rank]

theorem rank_ge_four_of_ultraCond {sims : List α} (h : ultraCond sims)
    (hne : ¬ sims.isEmpty) : 4 ≤ (validateConsensus sims).tier.rank := by
  rw [validate_tier_of_ultraCond h hne]; simp [Tier.rank]

theorem mediumCond_of_tier_medium {sims : List α}
    (h : (validateConsensus sims).tier = .MEDIUM) : mediumCond sims := by
  by_cases hne : sims.isEmpty
  · rw [List.isEmpty_iff.mp hne, validate_empty] at h; cases h
  by_cases hu : ultraCond sims
  · rw [validate_tier_of_ultraCond hu hne] at h; cases h
  by_cases hh : highCond sims
  · rw [validate_tier_of_highCond hu hh hne] at h; cases h
  by_cases hm : mediumCond sims
  · exact hm
  · rw [validate_tier_of_rejected hu hh hm hne] at h; cases h

theorem highCond_of_tier_high {sims : List α}
    (h : (validateConsensus sims).tier = .HIGH) : highCond sims := by
  by_cases hne : sims.isEmpty
  · rw [List.isEmpty_iff.mp hne, validate_empty] at h; cases h
  by_cases hu : ultraCond sims
  · rw [validate_tier_of_ultraCond hu hne] at h; cases h
  by_cases hh : highCond sims
  · exact hh
  by_cases hm : mediumCond sims
  · rw [validate_tier_of_mediumCond hu hh hm hne] at h; cases h
  · rw [validate_tier_of_rejected hu hh hm hne] at h; cases h

theorem ultraCond_of_tier_ultra {sims : List α}
    (h : (validateConsensus sims).tier = .ULTRA_HIGH) : ultraCond sims := by
  by_cases hne : sims.isEmpty
  · rw [List.isEmpty_iff.mp hne, validate_empty] at h; cases h
  by_cases hu : ultraCond sims
  · exact hu
  by_cases hh : highCond sims
  · rw [validate_tier_of_highCond hu hh hne] at h; cases h
  by_cases hm : mediumCond sims
  · rw [validate_tier_of_mediumCond hu hh hm hne] at h; cases h
  · rw [validate_tier_of_rejected hu hh hm hne] at h; cases h

theorem countGE_le_of_forall2 {s s' : List α} (h : List.Forall₂ (· ≤ ·) s s') (t : α) :
    countGE s t ≤ countGE s' t := by
  induction h with
  | nil => simp [countGE]
  | cons hab htail ih =>
      rename_i a b l1 l2
      simp only [countGE, List.countP_cons] at ih ⊢
      by_cases hta : t ≤ a
      · simp [hta, hta.trans hab]; omega
      · by_cases htb : t ≤ b <;> simp [hta, htb] <;> omega

theorem listMean_le_of_forall2 {s s' : List α} (h : List.Forall₂ (· ≤ ·) s s') :
    listMean s ≤ listMean s' := by
  rcases s with _ | ⟨a, l⟩
  · cases h; exact le_rfl
  · have hlen := h.length_eq
    have hsum := h.sum_le_sum
    unfold listMean
    rw [← hlen]
    have hpos : (0 : α) < ((a :: l).length : α) := by
      exact_mod_cast Nat.succ_pos l.length
    exact (div_le_div_iff_of_pos_right hpos).mpr hsum

theorem rank_mono_core {s s' : List α}
    (hU : countGE s (95/100) ≤ countGE s' (95/100))
    (hH : countGE s (85/100) ≤ countGE s' (85/100))
    (hM : countGE s (75/100) ≤ countGE s' (75/100))
    (hMin : countGE s (65/100) ≤ countGE s' (65/100))
    (hmean : listMean s ≤ listMean s')
    (hvar : listVariance s' < 15/100)
    (hne : ¬ s'.isEmpty) :
    (validateConsensus s).tier.rank ≤ (validateConsensus s').tier.rank := by
  cases htier : (validateConsensus s).tier
  · simp [Tier.rank]
  · simpa [Tier.rank] using rank_ge_one_of_nonempty hne
  · have hc := mediumCond_of_tier_medium htier
    exact le_trans (by simp [Tier.rank])
      (rank_ge_two_of_mediumCond
        ⟨hc.1.trans hM, hc.2.1.trans hmean, hc.2.2.1.trans hMin, hvar⟩ hne)
  · have hc := highCond_of_tier_high htier
    exact le_trans (by simp [Tier.rank])
      (rank_ge_three_of_highCond
        ⟨hc.1.trans hH, hc.2.1.trans hmean, hc.2.2.1.trans hMin, hvar⟩ hne)
  · have hc := ultraCond_of_tier_ultra htier
    exact le_trans (by simp [Tier.rank])
      (rank_ge_four_of_ultraCond
        ⟨hc.1.trans hU, hc.2.1.trans hmean, hc.2.2.1.trans hMin, hvar⟩ hne)

/-- C1: the consensus validator accepts at tier ULTRA_HIGH exactly when at
least 3 family similarities are ≥ 0.95, the mean similarity is ≥ 0.95, at
least `MIN_CONSENSUS_COUNT` (= 3) family similarities are ≥ the 0.65
minimum, and the variance across family similarities is strictly below
`MAX_VARIANCE` (= 0.15); all threshold comparisons are inclusive lower
bounds, so a candidate sitting exactly at a threshold clears it. -/
theorem C1_ultra_high_characterization (sims : List α) :
    ((validateConsensus sims).accept = true ∧
        (validateConsensus sims).tier = Tier.ULTRA_HIGH) ↔
      (3 ≤ countGE sims (95/100) ∧ 95/100 ≤ listMean sims ∧
        MIN_CONSENSUS_COUNT ≤ countGE sims (65/100) ∧ listVariance sims < 15/100) := by
  by_cases hne : sims.isEmpty
  · rw [List.isEmpty_iff.mp hne, validate_empty]
    exact iff_of_false (by simp) (by simp [countGE, MIN_CONSENSUS_COUNT])
  by_cases hu : ultraCond sims
  · rw [validate_tier_of_ultraCond hu hne]
    exact iff_of_true (by simp) hu
  by_cases hh : highCond sims
  · rw [validate_tier_of_highCond hu hh hne]
    exact iff_of_false (by simp) hu
  by_cases hm : mediumCond sims
  · rw [validate_tier_of_mediumCond hu hh hm hne]
    exact iff_of_false (by simp) hu
  · rw [validate_tier_of_rejected hu hh hm hne]
    exact iff_of_false (by simp) hu

/-- C4 counterexample: raising every family similarity of `monoLow` (a
MEDIUM-tier candidate) pointwise to `monoHigh` pushes the cross-family
variance past `MAX_VARIANCE`, so the tier drops to REJECTED. -/
theorem C4_counterexample :
    List.Forall₂ (· ≤ ·) monoLow monoHigh ∧
    (validateConsensus monoLow).tier = Tier.MEDIUM ∧
    (validateConsensus monoHigh).tier = Tier.REJECTED ∧
    Tier.rank Tier.REJECTED < Tier.rank Tier.MEDIUM := by
  refine ⟨by norm_num [monoLow, monoHigh, List.forall₂_cons], ?_, ?_, by simp [Tier.rank]⟩
  · have hu : ¬ ultraCond monoLow := by
      norm_num [monoLow, ultraCond, countGE, List.countP, List.countP.go]
    have hh : ¬ highCond monoLow := by
      norm_num [monoLow, highCond, listMean, List.sum_cons, List.sum_nil]
    have hm : mediumCond monoLow := by
      norm_num [monoLow, mediumCond, countGE, List.countP, List.countP.go,
        listMean, listVariance, MIN_CONSENSUS_COUNT, List.sum_cons, List.sum_nil,
        List.map_cons, List.map_nil]
    rw [validate_tier_of_mediumCond hu hh hm (by simp [monoLow])]
  · have hvar : ¬ listVariance monoHigh < 15/100 := by
      norm_num [monoHigh, listVariance, listMean, List.sum_cons, List.sum_nil,
        List.map_cons, List.map_nil]
    exact validate_rejected_of_highvar hvar (by simp [monoHigh])

/-- C4 (amended): increasing every per-family similarity of a fixed
candidate never decreases its confidence tier, provided the increased
candidate's cross-family variance stays below `MAX_VARIANCE` (= 0.15);
without that proviso the claim fails, because every acceptance branch of
`validate_recognition_with_consensus` also requires low variance. -/
theorem C4_monotone_under_low_variance {s s' : List α}
    (hpt : List.Forall₂ (· ≤ ·) s s') (hvar : listVariance s' < 15/100) :
    (validateConsensus s).tier.rank ≤ (validateConsensus s').tier.rank := by
  rcases s' with _ | ⟨a, l⟩
  · cases hpt; exact le_rfl
  · exact rank_mono_core (countGE_le_of_forall2 hpt _) (countGE_le_of_forall2 hpt _)
      (countGE_le_of_forall2 hpt _) (countGE_le_of_forall2 hpt _)
      (listMean_le_of_forall2 hpt) hvar (by simp)

theorem C4_witness :
    List.Forall₂ (· ≤ ·) ([0, 0, 0] : List ℚ) ([0, 0, 0] : List ℚ) ∧
    listVariance ([0, 0, 0] : List ℚ) < 15/100 ∧
    (validateConsensus ([0, 0, 0] : List ℚ)).tier.rank ≤
      (validateConsensus ([0, 0, 0] : List ℚ)).tier.rank :=
  ⟨.cons le_rfl (.cons le_rfl (.cons le_rfl .nil)),
   by simp [listVariance, listMean],
   C4_monotone_under_low_variance (.cons le_rfl (.cons le_rfl (.cons le_rfl .nil)))
     (by simp [listVariance, listMean])⟩

/-- C5 counterexample: `steadyCand` and `spreadCand` have the same mean
similarity 0.852 and `steadyCand` has the strictly smaller variance, yet
`steadyCand` only reaches tier MEDIUM (two values clear the HIGH
threshold) while `spreadCand` reaches tier HIGH (three values clear it):
the lower-variance candidate lands on the strictly lower tier. -/
theorem C5_counterexample :
    listMean steadyCand = listMean spreadCand ∧
    listVariance steadyCand < listVariance spreadCand ∧
    (validateConsensus steadyCand).tier = Tier.MEDIUM ∧
    (validateConsensus spreadCand).tier = Tier.HIGH ∧
    Tier.rank Tier.MEDIUM < Tier.rank Tier.HIGH := by
  refine ⟨by norm_num [steadyCand, spreadCand, listMean],
    by norm_num [steadyCand, spreadCand, listVariance, listMean],
    ?_, ?_, by simp [Tier.rank]⟩
  · have hu : ¬ ultraCond steadyCand := by
      norm_num [steadyCand, ultraCond, countGE, List.countP, List.countP.go]
    have hh : ¬ highCond steadyCand := by
      norm_num [steadyCand, highCond, countGE, List.countP, List.countP.go]
    have hm : mediumCond steadyCand := by
      norm_num [steadyCand, mediumCond, countGE, List.countP, List.countP.go,
        listMean, listVariance, MIN_CONSENSUS_COUNT]
    rw [validate_tier_of_mediumCond hu hh hm (by simp [steadyCand])]
  · have hu : ¬ ultraCond spreadCand := by
      norm_num [spreadCand, ultraCond, countGE, List.countP, List.countP.go]
    have hh : highCond spreadCand := by
      norm_num [spreadCand, highCond, countGE, List.countP, List.countP.go,
        listMean, listVariance, MIN_CONSENSUS_COUNT]
    rw [validate_tier_of_highCond hu hh (by simp [spreadCand])]

/-- C5 (amended): of two candidates with the same mean similarity, the
one with the smaller variance reaches an equal-or-higher tier provided it
also matches or beats the other's per-threshold family counts; without
the count proviso the claim fails, because the tier also depends on how
many individual families clear each threshold. -/
theorem C5_low_variance_not_worse {s s' : List α}
    (hmean : listMean s = listMean s')
    (hvar : listVariance s' ≤ listVariance s)
    (hU : countGE s (95/100) ≤ countGE s' (95/100))
    (hH : countGE s (85/100) ≤ countGE s' (85/100))
    (hM : countGE s (75/100) ≤ countGE s' (75/100))
    (hMin : countGE s (65/100) ≤ countGE s' (65/100))
    (hlen : s.length = s'.length) :
    (validateConsensus s).tier.rank ≤ (validateConsensus s').tier.rank := by
  rcases s' with _ | ⟨a, l⟩
  · rw [List.length_eq_zero.mp hlen]
  · have hne : ¬ (a :: l).isEmpty := by simp
    by_cases hv : listVariance (a :: l) < 15/100
    · exact rank_mono_core hU hH hM hMin hmean.le hv hne
    · have hvs : ¬ listVariance s < 15/100 := fun hc => hv (lt_of_le_of_lt hvar hc)
      have hnes : ¬ s.isEmpty := by
        rcases s with _ | _
        · cases hlen
        · simp
      rw [validate_rejected_of_highvar hvs hnes]
      simpa [Tier.rank] using rank_ge_one_of_nonempty hne

theorem C5_witness :
    listMean ([0, 0, 0] : List ℚ) = listMean ([0, 0, 0] : List ℚ) ∧
    listVariance ([0, 0, 0] : List ℚ) ≤ listVariance ([0, 0, 0] : List ℚ) ∧
    (validateConsensus ([0, 0, 0] : List ℚ)).tier.rank ≤
      (validateConsensus ([0, 0, 0] : List ℚ)).tier.rank :=
  ⟨rfl, le_rfl,
   C5_low_variance_not_worse rfl le_rfl le_rfl le_rfl le_rfl le_rfl rfl⟩

theorem scanStep_none (c : String × List α) :
    scanStep none c =
      if (validateConsensus c.2).accept = true then some (c.1, validateConsensus c.2)
      else none := by
  simp only [scanStep]
  cases h : (validateConsensus c.2).accept <;> simp [h]

theorem scanStep_some (b : String × ValidationResult α) (c : String × List α) :
    scanStep (some b) c =
      if (validateConsensus c.2).accept = true ∧
          b.2.overall < (validateConsensus c.2).overall then
        some (c.1, validateConsensus c.2)
      else some b := by
  simp only [scanStep]
  cases h : (validateConsensus c.2).accept <;>
    by_cases h2 : b.2.overall < (validateConsensus c.2).overall <;>
      simp [h, h2]

theorem scan_fold_spec (cands : List (String × List α)) :
    ∀ acc : Option (String × ValidationResult α),
      (∀ b, acc = some b → b.2.accept = true) →
      ((cands.foldl scanStep acc = none →
          acc = none ∧ ∀ c ∈ cands, (validateConsensus c.2).accept = false) ∧
       (∀ r, cands.foldl scanStep acc = some r →
          r.2.accept = true ∧
          (acc = some r ∨ ∃ c ∈ cands, r = (c.1, validateConsensus c.2)) ∧
          (∀ c ∈ cands, (validateConsensus c.2).accept = true →
            (validateConsensus c.2).overall ≤ r.2.overall) ∧
          (∀ b, acc = some b → b.2.overall ≤ r.2.overall))) := by
  induction cands with
  | nil =>
      intro acc hacc
      refine ⟨fun h => ⟨h, by simp⟩, fun r hr => ⟨hacc r hr, .inl hr, by simp, ?_⟩⟩
      intro b hb
      rw [hb] at hr
      injection hr with hr
      rw [hr]
  | cons c cs ih =>
      intro acc hacc
      have hstep : ∀ b, scanStep acc c = some b → b.2.accept = true := by
        intro b hb
        rcases acc with _ | a
        · rw [scanStep_none] at hb
          split at hb
          · injection hb with hb
            rw [← hb]
            next hca => exact hca
          · cases hb
        · rw [scanStep_some] at hb
          split at hb
          · injection hb with hb
            rw [← hb]
            next hcond => exact hcond.1
          · injection hb with hb
            rw [← hb]
            exact hacc a rfl
      obtain ⟨ihnone, ihsome⟩ := ih (scanStep acc c) hstep
      constructor
      · intro h
        obtain ⟨hacc', hall⟩ := ihnone h
        rcases acc with _ | a
        · rw [scanStep_none] at hacc'
          refine ⟨rfl, ?_⟩
          intro d hd
          rcases List.mem_cons.mp hd with rfl | hd
          · cases hb : (validateConsensus d.2).accept
            · rfl
            · rw [if_pos hb] at hacc'
              cases hacc'
          · exact hall d hd
        · rw [scanStep_some] at hacc'
          split at hacc' <;> cases hacc'
      · intro r hr
        obtain ⟨hra, hsrc, hmax, haccb⟩ := ihsome r hr
        have hheadle : (validateConsensus c.2).accept = true →
            (validateConsensus c.2).overall ≤ r.2.overall := by
          intro hca
          rcases acc with _ | a
          · rw [scanStep_none, if_pos hca] at haccb
            exact haccb _ rfl
          · rw [scanStep_some] at haccb
            split at haccb
            · exact haccb _ rfl
            · next hcond =>
                have hle : (validateConsensus c.2).overall ≤ a.2.overall := by
                  by_contra hlt
                  exact hcond ⟨hca, lt_of_not_le hlt⟩
                exact hle.trans (haccb a rfl)
        refine ⟨hra, ?_, ?_, ?_⟩
        · rcases hsrc with hsrc | ⟨d, hd, hrd⟩
          · rcases acc with _ | a
            · rw [scanStep_none] at hsrc
              split at hsrc
              · injection hsrc with hsrc
                exact .inr ⟨c, List.mem_cons_self c cs, hsrc.symm⟩
              · cases hsrc
            · rw [scanStep_some] at hsrc
              split at hsrc
              · injection hsrc with hsrc
                exact .inr ⟨c, List.mem_cons_self c cs, hsrc.symm⟩
              · injection hsrc with hsrc
                rw [hsrc]
                exact .inl rfl
          · exact .inr ⟨d, List.mem_cons_of_mem _ hd, hrd⟩
        · intro d hd hda
          rcases List.mem_cons.mp hd with rfl | hd
          · exact hheadle hda
          · exact hmax d hd hda
        · intro b hb
          subst hb
          rw [scanStep_some] at haccb
          split at haccb
          · next hcond => exact (le_of_lt hcond.2).trans (haccb _ rfl)
          · exact haccb b rfl

theorem rej_fold_spec (cands : List (String × List α)) :
    ∀ acc : Option (String × ValidationResult α),
      ((cands.foldl bestRejStep acc = none → acc = none ∧ cands = []) ∧
       (∀ r, cands.foldl bestRejStep acc = some r →
          (acc = some r ∨ ∃ c ∈ cands, r = (c.1, validateConsensus c.2)) ∧
          (∀ c ∈ cands, (validateConsensus c.2).overall ≤ r.2.overall) ∧
          (∀ b, acc = some b → b.2.overall ≤ r.2.overall))) := by
  induction cands with
  | nil =>
      intro acc
      refine ⟨fun h => ⟨h, rfl⟩, fun r hr => ⟨.inl hr, by simp, ?_⟩⟩
      intro b hb
      rw [hb] at hr
      injection hr with hr
      rw [hr]
  | cons c cs ih =>
      intro acc
      obtain ⟨ihnone, ihsome⟩ := ih (bestRejStep acc c)
      have hstep_some : ∀ b, bestRejStep acc c = some b →
          (validateConsensus c.2).overall ≤ b.2.overall ∧
          (b = (c.1, validateConsensus c.2) ∨ acc = some b) ∧
          (∀ a', acc = some a' → a'.2.overall ≤ b.2.overall) := by
        intro b hb
        rcases acc with _ | a
        · simp only [bestRejStep] at hb
          injection hb with hb
          rw [← hb]
          exact ⟨le_rfl, .inl rfl, fun a' ha' => by cases ha'⟩
        · simp only [bestRejStep] at hb
          split at hb
          · next hlt =>
              injection hb with hb
              rw [← hb]
              refine ⟨le_rfl, .inl rfl, ?_⟩
              intro a' ha'
              injection ha' with ha'
              rw [← ha']
              exact le_of_lt hlt
          · next hnlt =>
              injection hb with hb
              rw [← hb]
              refine ⟨le_of_not_lt hnlt, .inr rfl, ?_⟩
              intro a' ha'
              injection ha' with ha'
              rw [← ha']
      constructor
      · intro h
        obtain ⟨hacc', -⟩ := ihnone h
        rcases acc with _ | a <;> simp only [bestRejStep] at hacc'
        · cases hacc'
        · split at hacc' <;> cases hacc'
      · intro r hr
        obtain ⟨hsrc, hmax, haccb⟩ := ihsome r hr
        have hstep_ne : ∃ b, bestRejStep acc c = some b := by
          rcases acc with _ | a
          · exact ⟨_, rfl⟩
          · simp only [bestRejStep]
            split
            · exact ⟨_, rfl⟩
            · exact ⟨_, rfl⟩
        obtain ⟨b0, hb0⟩ := hstep_ne
        obtain ⟨hcle, hb0src, hmono⟩ := hstep_some b0 hb0
        refine ⟨?_, ?_, ?_⟩
        · rcases hsrc with hsrc | ⟨d, hd, hrd⟩
          · rw [hb0] at hsrc
            injection hsrc with hsrc
            rcases hb0src with hb0src | hb0src
            · rw [hsrc] at hb0src
              exact .inr ⟨c, List.mem_cons_self c cs, hb0src⟩
            · rw [hsrc] at hb0src
              exact .inl hb0src
          · exact .inr ⟨d, List.mem_cons_of_mem _ hd, hrd⟩
        · intro d hd
          rcases List.mem_cons.mp hd with rfl | hd
          · exact hcle.trans (haccb b0 hb0)
          · exact hmax d hd
        · intro b hb
          exact (hmono b hb).trans (haccb b0 hb0)

theorem recognizeScan_eq_of_fold_some {cands : List (String × List α)} {sid : String}
    {v : ValidationResult α} (h : cands.foldl scanStep none = some (sid, v))
    (hsid : ¬ sid = "") :
    recognizeScan cands = ⟨true, some sid, v.overall * 100, some v.tier, none, none⟩ := by
  unfold recognizeScan
  rw [h]
  simp only [if_neg hsid]

theorem recognizeScan_eq_of_fold_none {cands : List (String × List α)}
    (h : cands.foldl scanStep none = none) :
    recognizeScan cands = rejectedOutcome cands := by
  unfold recognizeScan
  rw [h]

theorem recognizeScan_eq_of_fold_empty_id {cands : List (String × List α)}
    {v : ValidationResult α} (h : cands.foldl scanStep none = some ("", v)) :
    recognizeScan cands = rejectedOutcome cands := by
  unfold recognizeScan
  rw [h]
  simp

/-- C8 (amended): against a non-empty store whose identities are
non-empty strings, if some candidate is accepted the scan returns a match
naming an accepted identity of maximal aggregated score, and if no
candidate is accepted it returns no match and reports a candidate of
maximal aggregated score as the best rejected match.  The restriction to
non-empty identity strings is forced by the Python guard
`if best_match and …`, under which an accepted match with identity `""`
is dropped (see the counterexample). -/
theorem C8_best_accepted_wins (cands : List (String × List α))
    (hne : cands ≠ [])
    (hids : ∀ c ∈ cands, c.1 ≠ "") :
    ((∃ c ∈ cands, (validateConsensus c.2).accept = true) →
        (recognizeScan cands).matchFound = true ∧
        ∃ c ∈ cands, (recognizeScan cands).student = some c.1 ∧
          (validateConsensus c.2).accept = true ∧
          ∀ d ∈ cands, (validateConsensus d.2).accept = true →
            (validateConsensus d.2).overall ≤ (validateConsensus c.2).overall) ∧
    ((∀ c ∈ cands, (validateConsensus c.2).accept = false) →
        (recognizeScan cands).matchFound = false ∧
        ∃ c ∈ cands,
          (recognizeScan cands).bestRejected = some (c.1, validateConsensus c.2) ∧
          ∀ d ∈ cands, (validateConsensus d.2).overall ≤ (validateConsensus c.2).overall) := by
  obtain ⟨hnone, hsome⟩ := scan_fold_spec cands none (fun b hb => by cases hb)
  constructor
  · rintro ⟨c0, hc0, hc0a⟩
    cases hfold : cands.foldl scanStep none with
    | none =>
        obtain ⟨-, hall⟩ := hnone hfold
        rw [hall c0 hc0] at hc0a
        cases hc0a
    | some r =>
        obtain ⟨hra, hsrc, hmax, -⟩ := hsome r hfold
        rcases hsrc with hsrc | ⟨c, hc, hrc⟩
        · cases hsrc
        · subst hrc
          have hid : ¬ c.1 = "" := hids c hc
          rw [recognizeScan_eq_of_fold_some hfold hid]
          exact ⟨rfl, c, hc, rfl, hra, fun d hd hda => hmax d hd hda⟩
  · intro hall
    cases hfold : cands.foldl scanStep none with
    | some r =>
        obtain ⟨hra, hsrc, -, -⟩ := hsome r hfold
        rcases hsrc with hsrc | ⟨c, hc, hrc⟩
        · cases hsrc
        · rw [hrc] at hra
          rw [hall c hc] at hra
          cases hra
    | none =>
        rw [recognizeScan_eq_of_fold_none hfold]
        obtain ⟨hrejnone, hrejsome⟩ := rej_fold_spec cands none
        cases hrej : cands.foldl bestRejStep none with
        | none => exact absurd (hrejnone hrej).2 hne
        | some r =>
            obtain ⟨hsrc, hmaxR, -⟩ := hrejsome r hrej
            rcases hsrc with hsrc | ⟨c, hc, hrc⟩
            · cases hsrc
            · subst hrc
              refine ⟨rfl, c, hc, ?_, fun d hd => hmaxR d hd⟩
              simp only [rejectedOutcome]
              rw [hrej]

theorem ultraCond_all_ones : ultraCond ([1, 1, 1, 1, 1] : List ℚ) := by
  norm_num [ultraCond, countGE, List.countP, List.countP.go, listMean, listVariance,
    MIN_CONSENSUS_COUNT]

/-- C8 counterexample: with a store holding the single identity `""`
whose candidate is accepted at tier ULTRA_HIGH, the Python guard
`if best_match and best_validation['accept']` treats the empty identity
string as falsy and the scan reports no match, so the accepted identity
of maximal aggregated score is not named. -/
theorem C8_counterexample :
    (validateConsensus ([1, 1, 1, 1, 1] : List ℚ)).accept = true ∧
    (recognizeScan [("", ([1, 1, 1, 1, 1] : List ℚ))]).matchFound = false := by
  have hv := validate_tier_of_ultraCond ultraCond_all_ones (by simp)
  constructor
  · rw [hv]
  · have hfold : List.foldl scanStep none [("", ([1, 1, 1, 1, 1] : List ℚ))] =
        some ("", validateConsensus ([1, 1, 1, 1, 1] : List ℚ)) := by
      simp [scanStep_none, hv]
    rw [recognizeScan_eq_of_fold_empty_id hfold]
    simp [rejectedOutcome]

theorem C8_witness :
    ([("alice", ([1, 1, 1, 1, 1] : List ℚ))] ≠ []) ∧
    (∀ c ∈ [("alice", ([1, 1, 1, 1, 1] : List ℚ))], c.1 ≠ "") ∧
    (((∃ c ∈ [("alice", ([1, 1, 1, 1, 1] : List ℚ))],
          (validateConsensus c.2).accept = true) →
        (recognizeScan [("alice", ([1, 1, 1, 1, 1] : List ℚ))]).matchFound = true ∧
        ∃ c ∈ [("alice", ([1, 1, 1, 1, 1] : List ℚ))],
          (recognizeScan [("alice", ([1, 1, 1, 1, 1] : List ℚ))]).student = some c.1 ∧
          (validateConsensus c.2).accept = true ∧
          ∀ d ∈ [("alice", ([1, 1, 1, 1, 1] : List ℚ))],
            (validateConsensus d.2).accept = true →
            (validateConsensus d.2).overall ≤ (validateConsensus c.2).overall) ∧
      ((∀ c ∈ [("alice", ([1, 1, 1, 1, 1] : List ℚ))],
          (validateConsensus c.2).accept = false) →
        (recognizeScan [("alice", ([1, 1, 1, 1, 1] : List ℚ))]).matchFound = false ∧
        ∃ c ∈ [("alice", ([1, 1, 1, 1, 1] : List ℚ))],
          (recognizeScan [("alice", ([1, 1, 1, 1, 1] : List ℚ))]).bestRejected =
            some (c.1, validateConsensus c.2) ∧
          ∀ d ∈ [("alice", ([1, 1, 1, 1, 1] : List ℚ))],
            (validateConsensus d.2).overall ≤ (validateConsensus c.2).overall)) :=
  ⟨by simp, by simp, C8_best_accepted_wins _ (by simp) (by simp)⟩

/-- C3 (amended): recognition against an empty profile store always
returns a no-match result (no accepted identity, no best-rejected entry)
whose reason is the generic feature-extraction failure or no-consensus
string; the code defines no `NoEnrolledProfiles` error, so that reason is
never returned. -/
theorem C3_empty_store_never_matches (extracted : Option FeatureBundle) :
    (recognizeFromImage extracted []).matchFound = false ∧
    (recognizeFromImage extracted []).student = none ∧
    (recognizeFromImage extracted []).bestRejected = none ∧
    (recognizeFromImage extracted []).reason ≠ some RecReason.noEnrolledProfiles := by
  cases extracted <;>
    simp [recognizeFromImage, recognizeScan, rejectedOutcome]

/-- C3 counterexample: a recognition call with an empty store (and a
successfully extracted probe bundle) yields the generic reason `'No
student passed ultra-robust validation'`, not a dedicated
`NoEnrolledProfiles` error as the claim states. -/
theorem C3_counterexample :
    (recognizeFromImage (some ⟨some [1], some [1], some [1], some [1], some [1]⟩)
        []).reason = some RecReason.noConsensus ∧
    RecReason.noConsensus ≠ RecReason.noEnrolledProfiles := by
  exact ⟨rfl, by simp⟩

theorem reflect101_lt {n : ℕ} (hn : 2 ≤ n) {i : ℤ} (h1 : -1 ≤ i) (h2 : i ≤ n) :
    reflect101 n i < n := by
  unfold reflect101
  split
  · omega
  · split <;> omega

theorem lapSample_uniform {img : GrayImage} {c : ℝ}
    (huni : ∀ i j, i < img.h → j < img.w → img.pix i j = c)
    (hh : 2 ≤ img.h) (hw : 2 ≤ img.w) {a b : ℤ}
    (ha1 : -1 ≤ a) (ha2 : a ≤ img.h) (hb1 : -1 ≤ b) (hb2 : b ≤ img.w) :
    lapSample img a b = c :=
  huni _ _ (reflect101_lt hh ha1 ha2) (reflect101_lt hw hb1 hb2)

theorem laplacian_uniform {img : GrayImage} {c : ℝ}
    (huni : ∀ i j, i < img.h → j < img.w → img.pix i j = c)
    (hh : 2 ≤ img.h) (hw : 2 ≤ img.w) :
    ∀ i j, i < img.h → j < img.w → (laplacianImage img).pix i j = 0 := by
  intro i j hi hj
  simp only [laplacianImage]
  rw [lapSample_uniform huni hh hw (by omega) (by omega) (by omega) (by omega),
    lapSample_uniform huni hh hw (by omega) (by omega) (by omega) (by omega),
    lapSample_uniform huni hh hw (by omega) (by omega) (by omega) (by omega),
    lapSample_uniform huni hh hw (by omega) (by omega) (by omega) (by omega),
    lapSample_uniform huni hh hw (by omega) (by omega) (by omega) (by omega)]
  ring

theorem imgMean_of_allzero {img2 : GrayImage}
    (h0 : ∀ i j, i < img2.h → j < img2.w → img2.pix i j = 0) :
    imgMean img2 = 0 := by
  unfold imgMean imgSum
  rw [Finset.sum_eq_zero, zero_div]
  intro i hi
  rw [Finset.sum_eq_zero]
  intro j hj
  exact h0 i j (Finset.mem_range.mp hi) (Finset.mem_range.mp hj)

theorem imgVariance_of_allzero {img2 : GrayImage}
    (h0 : ∀ i j, i < img2.h → j < img2.w → img2.pix i j = 0) :
    imgVariance img2 = 0 := by
  unfold imgVariance imgSum
  rw [Finset.sum_eq_zero, zero_div]
  intro i hi
  rw [Finset.sum_eq_zero]
  intro j hj
  simp [h0 i j (Finset.mem_range.mp hi) (Finset.mem_range.mp hj), imgMean_of_allzero h0]

theorem validateFaceQuality_uniform {img : GrayImage} {c : ℝ}
    (hh : 50 ≤ img.h) (hw : 50 ≤ img.w)
    (huni : ∀ i j, i < img.h → j < img.w → img.pix i j = c) :
    validateFaceQuality img = ⟨false, 0, .tooBlurry⟩ := by
  have hlap := laplacian_uniform huni (by omega) (by omega)
  have hvar : imgVariance (laplacianImage img) = 0 := imgVariance_of_allzero hlap
  unfold validateFaceQuality
  rw [if_neg (by simp [Nat.mul_eq_zero]; omega), if_neg (by omega)]
  simp only [hvar]
  norm_num

/-- C7 (amended): a uniformly colored crop of at least the minimum size
is rejected by the quality gate before feature extraction, but with the
`TooBlurry` error: the checks run in the order size, sharpness, mean
intensity, contrast, short-circuiting on the first failure, and a uniform
crop has zero Laplacian variance, so the sharpness check fires before the
`PoorLighting`/`LowContrast` checks are ever reached. -/
theorem C7_uniform_rejected_as_blurry {img : GrayImage} {c : ℝ}
    (hh : 50 ≤ img.h) (hw : 50 ≤ img.w)
    (huni : ∀ i j, i < img.h → j < img.w → img.pix i j = c) :
    (validateFaceQuality img).valid = false ∧
    (validateFaceQuality img).message = QualityMessage.tooBlurry ∧
    (validateFaceQuality img).message ≠ QualityMessage.poorLighting ∧
    (validateFaceQuality img).message ≠ QualityMessage.lowContrast ∧
    ∀ body, extractEnhancedFeatures body img = none := by
  rw [validateFaceQuality_uniform hh hw huni]
  refine ⟨rfl, rfl, by simp, by simp, ?_⟩
  intro body
  unfold extractEnhancedFeatures
  rw [validateFaceQuality_uniform hh hw huni]
  simp

theorem C7_witness :
    (50 ≤ (50 : ℕ)) ∧
    (∀ i j, i < 50 → j < 50 → (fun _ _ => (128 : ℝ)) i j = 128) ∧
    ((validateFaceQuality ⟨50, 50, fun _ _ => (128 : ℝ)⟩).valid = false ∧
      (validateFaceQuality ⟨50, 50, fun _ _ => (128 : ℝ)⟩).message =
        QualityMessage.tooBlurry ∧
      (validateFaceQuality ⟨50, 50, fun _ _ => (128 : ℝ)⟩).message ≠
        QualityMessage.poorLighting ∧
      (validateFaceQuality ⟨50, 50, fun _ _ => (128 : ℝ)⟩).message ≠
        QualityMessage.lowContrast ∧
      ∀ body, extractEnhancedFeatures body ⟨50, 50, fun _ _ => (128 : ℝ)⟩ = none) :=
  ⟨by decide, fun _ _ _ _ => rfl,
    C7_uniform_rejected_as_blurry (by decide) (by decide) (fun _ _ _ _ => rfl)⟩

/-- C7 counterexample: the uniformly gray 50×50 crop (pixel value 128,
minimum size, mid brightness) is rejected with the `TooBlurry` message,
not with `PoorLighting` or `LowContrast` as the claim states. -/
theorem C7_counterexample :
    (validateFaceQuality ⟨50, 50, fun _ _ => (128 : ℝ)⟩).message =
      QualityMessage.tooBlurry ∧
    ¬ ((validateFaceQuality ⟨50, 50, fun _ _ => (128 : ℝ)⟩).message =
          QualityMessage.poorLighting ∨
       (validateFaceQuality ⟨50, 50, fun _ _ => (128 : ℝ)⟩).message =
          QualityMessage.lowContrast) := by
  rw [validateFaceQuality_uniform (le_refl 50) (le_refl 50) (fun _ _ _ _ => rfl)]
  exact ⟨rfl, by simp⟩

theorem foldl_lor_lt {n : ℕ} (g : ℕ → Prop) [DecidablePred g] :
    ∀ (l : List ℕ) (acc : ℕ), (∀ p ∈ l, p < n) → acc < 2 ^ n →
      l.foldl (fun pattern p => if g p then pattern ||| (1 <<< p) else pattern) acc <
        2 ^ n := by
  intro l
  induction l with
  | nil => intro acc _ hacc; exact hacc
  | cons p ps ih =>
      intro acc hp hacc
      simp only [List.foldl_cons]
      apply ih _ (fun q hq => hp q (List.mem_cons_of_mem _ hq))
      split
      · have h1 : (1 <<< p) < 2 ^ n := by
          rw [Nat.shiftLeft_eq, one_mul]
          exact Nat.pow_lt_pow_right (by norm_num) (hp p (List.mem_cons_self p ps))
        exact Nat.bitwise_lt_two_pow hacc h1
      · exact hacc

theorem lbpPattern_lt (img : ℕ → ℕ → ℕ) (rows cols radius nPoints i j : ℕ) :
    lbpPattern img rows cols radius nPoints i j < 2 ^ nPoints := by
  unfold lbpPattern
  exact foldl_lor_lt
    (fun p => img i j ≤ img (clampIdx rows ((i : ℤ) + lbpDx radius nPoints p))
      (clampIdx cols ((j : ℤ) + lbpDy radius nPoints p)))
    (List.range nPoints) 0 (fun p hp => List.mem_range.mp hp)
    (Nat.pow_pos (by norm_num))

/-- C10: with `n_points = 16` the per-pixel LBP pattern can reach
2^16 - 1 (for instance on a constant image every neighbor comparison
succeeds), but the `lbp` array has dtype `uint8`, so the stored — and
subsequently histogrammed — code is the pattern reduced modulo 2^8
(here 255 ≠ 65535); with `n_points = 8` the pattern is below 2^8 and the
stored code equals the full pattern. -/
theorem C10_lbp_uint8_wraparound :
    (lbpPattern (fun _ _ => 7) 256 256 1 16 5 5 = 2 ^ 16 - 1 ∧
      lbpStored (fun _ _ => 7) 256 256 1 16 5 5 = 255 ∧
      calculateLbp (fun _ _ => 7) 256 256 1 16 5 5 = 255 ∧
      (255 : ℕ) ≠ 2 ^ 16 - 1) ∧
    (∀ img rows cols radius i j,
        lbpStored img rows cols radius 16 i j =
          lbpPattern img rows cols radius 16 i j % 2 ^ 8) ∧
    (∀ img rows cols radius i j,
        lbpStored img rows cols radius 8 i j = lbpPattern img rows cols radius 8 i j) :=
  ⟨by decide,
   fun _ _ _ _ _ _ => rfl,
   fun img rows cols radius i j => Nat.mod_eq_of_lt (lbpPattern_lt img rows cols radius 8 i j)⟩

/-- C6 (amended): when a family common to both bundles has vectors of
different lengths, the whole comparison yields the empty similarity
mapping (NumPy raises inside the loop and the `except` handler returns
`{}`), and the validator then rejects with the untyped `'ERROR'`
confidence level; there is no `ConfigurationMismatch` error, and a family
missing from one bundle is silently skipped rather than failing (see the
counterexample). -/
theorem C6_length_mismatch_yields_empty (b1 b2 : FeatureBundle)
    (h : (commonFamilies b1 b2).any
      (fun p => p.2.1.length != p.2.2.length) = true) :
    calculateMultiMetricSimilarity b1 b2 = [] ∧
    (validateConsensus
      ((calculateMultiMetricSimilarity b1 b2).map Prod.snd)).accept = false ∧
    (validateConsensus
      ((calculateMultiMetricSimilarity b1 b2).map Prod.snd)).tier = Tier.ERROR := by
  have he : calculateMultiMetricSimilarity b1 b2 = [] := by
    simp only [calculateMultiMetricSimilarity]
    rw [if_pos h]
  rw [he]
  exact ⟨rfl, rfl, rfl⟩

theorem C6_witness :
    ((commonFamilies ⟨some [1], none, none, none, none⟩
        ⟨some [1, 0], none, none, none, none⟩).any
        (fun p => p.2.1.length != p.2.2.length) = true) ∧
    (calculateMultiMetricSimilarity ⟨some [1], none, none, none, none⟩
        ⟨some [1, 0], none, none, none, none⟩ = [] ∧
      (validateConsensus ((calculateMultiMetricSimilarity
        ⟨some [1], none, none, none, none⟩
        ⟨some [1, 0], none, none, none, none⟩).map Prod.snd)).accept = false ∧
      (validateConsensus ((calculateMultiMetricSimilarity
        ⟨some [1], none, none, none, none⟩
        ⟨some [1, 0], none, none, none, none⟩).map Prod.snd)).tier = Tier.ERROR) :=
  ⟨rfl, C6_length_mismatch_yields_empty _ _ rfl⟩

/-- C6 counterexample: a stored bundle missing its `edges` family does
not match the probe's layout, yet the comparison does not fail fast with
any configuration error — it silently computes and returns similarity
scores for the four remaining families. -/
theorem C6_counterexample :
    ¬ layoutMatches ⟨some [1], some [1], some [1], some [1], some [1]⟩
        ⟨some [1], some [1], some [1], some [1], none⟩ ∧
    (calculateMultiMetricSimilarity ⟨some [1], some [1], some [1], some [1], some [1]⟩
        ⟨some [1], some [1], some [1], some [1], none⟩).map Prod.fst =
      [FeatureFamily.lbp, .gradient, .regional, .gabor] := by
  constructor
  · intro h
    have hc := h .edges
    simp [FeatureBundle.famGet] at hc
  · rfl

theorem sumSq_nonneg (v : List ℝ) : 0 ≤ sumSq v := by
  unfold sumSq
  induction v with
  | nil => simp
  | cons a l ih => simpa using add_nonneg (sq_nonneg a) ih

theorem l2norm_nonneg (v : List ℝ) : 0 ≤ l2norm v := Real.sqrt_nonneg _

theorem sq_l2norm (v : List ℝ) : l2norm v ^ 2 = sumSq v :=
  Real.sq_sqrt (sumSq_nonneg v)

theorem normDenom_pos (v : List ℝ) : 0 < l2norm v + 1/10000000 := by
  have := l2norm_nonneg v
  linarith

theorem sumSq_map_div (v : List ℝ) (c : ℝ) :
    sumSq (v.map fun x => x / c) = sumSq v / c ^ 2 := by
  unfold sumSq
  induction v with
  | nil => simp
  | cons a l ih =>
      simp only [List.map_cons, List.sum_cons] at ih ⊢
      rw [ih, div_pow, add_div]

theorem sumSq_normalizeVec_le_one (v : List ℝ) : sumSq (normalizeVec v) ≤ 1 := by
  unfold normalizeVec
  rw [sumSq_map_div]
  have hc := normDenom_pos v
  rw [div_le_one (by positivity)]
  have : sumSq v = l2norm v ^ 2 := (sq_l2norm v).symm
  rw [this]
  have h0 := l2norm_nonneg v
  nlinarith

theorem normalizeVec_nonneg {v : List ℝ} (hv : ∀ x ∈ v, 0 ≤ x) :
    ∀ x ∈ normalizeVec v, 0 ≤ x := by
  intro x hx
  unfold normalizeVec at hx
  obtain ⟨y, hy, rfl⟩ := List.mem_map.mp hx
  exact div_nonneg (hv y hy) (normDenom_pos v).le

theorem normalizeVec_length (v : List ℝ) : (normalizeVec v).length = v.length :=
  List.length_map _ _

theorem dotList_nonneg {a b : List ℝ} (ha : ∀ x ∈ a, 0 ≤ x) (hb : ∀ x ∈ b, 0 ≤ x) :
    0 ≤ dotList a b := by
  unfold dotList
  induction a generalizing b with
  | nil => simp
  | cons x xs ih =>
      rcases b with _ | ⟨y, ys⟩
      · simp
      · simp only [List.zip_cons_cons, List.map_cons, List.sum_cons]
        have hx := ha x (List.mem_cons_self x xs)
        have hy := hb y (List.mem_cons_self y ys)
        have hrest := ih (fun z hz => ha z (List.mem_cons_of_mem _ hz))
          (fun z hz => hb z (List.mem_cons_of_mem _ hz))
        positivity

theorem sumSq_sub_eq : ∀ (a b : List ℝ), a.length = b.length →
    sumSq (subList a b) = sumSq a + sumSq b - 2 * dotList a b := by
  intro a
  induction a with
  | nil =>
      intro b hb
      rw [List.length_nil, eq_comm, List.length_eq_zero] at hb
      subst hb
      simp [sumSq, subList, dotList]
  | cons x xs ih =>
      intro b hb
      rcases b with _ | ⟨y, ys⟩
      · cases hb
      · have hlen : xs.length = ys.length := by
          simpa using hb
        simp only [subList, dotList, sumSq, List.zip_cons_cons, List.map_cons,
          List.sum_cons] at ih ⊢
        rw [ih ys hlen]
        ring

theorem euclideanDist_le_sqrt_two {f1 f2 : List ℝ}
    (h1 : ∀ x ∈ f1, 0 ≤ x) (h2 : ∀ x ∈ f2, 0 ≤ x) (hlen : f1.length = f2.length) :
    l2norm (subList (normalizeVec f1) (normalizeVec f2)) ≤ Real.sqrt 2 := by
  unfold l2norm
  apply Real.sqrt_le_sqrt
  rw [sumSq_sub_eq _ _ (by rw [normalizeVec_length, normalizeVec_length, hlen])]
  have hs1 := sumSq_normalizeVec_le_one f1
  have hs2 := sumSq_normalizeVec_le_one f2
  have hdot := dotList_nonneg (normalizeVec_nonneg h1) (normalizeVec_nonneg h2)
  linarith

theorem familySimilarity_lower_bound {f1 f2 : List ℝ}
    (h1 : ∀ x ∈ f1, 0 ≤ x) (h2 : ∀ x ∈ f2, 0 ≤ x) (hlen : f1.length = f2.length) :
    1 / (1 + Real.sqrt 2) ≤ familySimilarity f1 f2 := by
  have hd := euclideanDist_le_sqrt_two h1 h2 hlen
  have hd0 : 0 ≤ l2norm (subList (normalizeVec f1) (normalizeVec f2)) :=
    l2norm_nonneg _
  have hinv : 1 / (1 + Real.sqrt 2) ≤
      1 / (1 + l2norm (subList (normalizeVec f1) (normalizeVec f2))) := by
    apply one_div_le_one_div_of_le
    · linarith
    · linarith
  exact hinv.trans ((le_max_left _ _).trans (le_max_right _ _))

theorem mem_commonFamilies {b1 b2 : FeatureBundle} {p : FeatureFamily × List ℝ × List ℝ}
    (hp : p ∈ commonFamilies b1 b2) :
    b1.famGet p.1 = some p.2.1 ∧ b2.famGet p.1 = some p.2.2 := by
  unfold commonFamilies at hp
  obtain ⟨fam, -, heq⟩ := List.mem_filterMap.mp hp
  rcases hg1 : b1.famGet fam with _ | f1 <;> rcases hg2 : b2.famGet fam with _ | f2 <;>
    rw [hg1, hg2] at heq
  · cases heq
  · cases heq
  · cases heq
  · injection heq with heq
    rw [← heq]
    exact ⟨hg1, hg2⟩

/-- C9: when every vector of both bundles has only non-negative entries
(as holds for everything the extractor produces: histograms, moments of
pixel values in [0,1], edge densities), every per-family similarity
returned by `calculate_multi_metric_similarity` is at least
`1/(1+sqrt 2)`: after the epsilon-guarded L2 normalization both vectors
have norm at most 1 and non-negative dot product, so their euclidean
distance is at most `sqrt 2`, the inverse-distance metric is at least
`1/(1+sqrt 2)`, and the best-of-three rule only takes the maximum over
it. -/
theorem C9_similarity_lower_bound (b1 b2 : FeatureBundle)
    (h1 : ∀ fam f1, b1.famGet fam = some f1 → ∀ x ∈ f1, 0 ≤ x)
    (h2 : ∀ fam f2, b2.famGet fam = some f2 → ∀ x ∈ f2, 0 ≤ x) :
    ∀ fam s, (fam, s) ∈ calculateMultiMetricSimilarity b1 b2 →
      1 / (1 + Real.sqrt 2) ≤ s := by
  intro fam s hmem
  simp only [calculateMultiMetricSimilarity] at hmem
  split at hmem
  · cases hmem
  · next hnoany =>
      obtain ⟨p, hp, heq⟩ := List.mem_map.mp hmem
      have hlen : p.2.1.length = p.2.2.length := by
        by_contra hne
        apply hnoany
        exact List.any_eq_true.mpr ⟨p, hp, by simpa using hne⟩
      obtain ⟨hg1, hg2⟩ := mem_commonFamilies hp
      have hs : s = familySimilarity p.2.1 p.2.2 := by
        have := congrArg Prod.snd heq
        simpa using this.symm
      rw [hs]
      exact familySimilarity_lower_bound (h1 p.1 p.2.1 hg1) (h2 p.1 p.2.2 hg2) hlen

theorem C9_witness :
    (∀ fam f1, FeatureBundle.famGet ⟨some [1], some [1], some [1], some [1], some [1]⟩
        fam = some f1 → ∀ x ∈ f1, (0:ℝ) ≤ x) ∧
    (∀ fam s, (fam, s) ∈ calculateMultiMetricSimilarity
        ⟨some [1], some [1], some [1], some [1], some [1]⟩
        ⟨some [1], some [1], some [1], some [1], some [1]⟩ →
      1 / (1 + Real.sqrt 2) ≤ s) :=
  ⟨fun fam f1 hf => match fam, f1, hf with
    | .lbp, _, rfl => List.forall_mem_singleton.mpr zero_le_one
    | .gradient, _, rfl => List.forall_mem_singleton.mpr zero_le_one
    | .regional, _, rfl => List.forall_mem_singleton.mpr zero_le_one
    | .gabor, _, rfl => List.forall_mem_singleton.mpr zero_le_one
    | .edges, _, rfl => List.forall_mem_singleton.mpr zero_le_one,
   C9_similarity_lower_bound _ _
    (fun fam f1 hf => match fam, f1, hf with
      | .lbp, _, rfl => List.forall_mem_singleton.mpr zero_le_one
      | .gradient, _, rfl => List.forall_mem_singleton.mpr zero_le_one
      | .regional, _, rfl => List.forall_mem_singleton.mpr zero_le_one
      | .gabor, _, rfl => List.forall_mem_singleton.mpr zero_le_one
      | .edges, _, rfl => List.forall_mem_singleton.mpr zero_le_one)
    (fun fam f2 hf => match fam, f2, hf with
      | .lbp, _, rfl => List.forall_mem_singleton.mpr zero_le_one
      | .gradient, _, rfl => List.forall_mem_singleton.mpr zero_le_one
      | .regional, _, rfl => List.forall_mem_singleton.mpr zero_le_one
      | .gabor, _, rfl => List.forall_mem_singleton.mpr zero_le_one
      | .edges, _, rfl => List.forall_mem_singleton.mpr zero_le_one)⟩

theorem validate_overall_svar {sims : List α} (hne : ¬ sims.isEmpty) :
    (validateConsensus sims).overall = listMean sims ∧
    (validateConsensus sims).svar = listVariance sims := by
  by_cases hu : ultraCond sims
  · rw [validate_tier_of_ultraCond hu hne]; exact ⟨rfl, rfl⟩
  by_cases hh : highCond sims
  · rw [validate_tier_of_highCond hu hh hne]; exact ⟨rfl, rfl⟩
  by_cases hm : mediumCond sims
  · rw [validate_tier_of_mediumCond hu hh hm hne]; exact ⟨rfl, rfl⟩
  · rw [validate_tier_of_rejected hu hh hm hne]; exact ⟨rfl, rfl⟩

/-- C2: for two bundles of identical family/length layout the per-family
similarity is the maximum of the three metrics — cosine similarity of the
normalized vectors, inverse-distance similarity `1/(1+euclidean_distance)`
and Pearson correlation mapped from [-1,1] to [0,1] — computed over all
five families in order, and the validator reports exactly the arithmetic
mean of the per-family similarities as the aggregated score and their
population variance as the variance. -/
theorem C2_similarity_structure (b1 b2 : FeatureBundle)
    (hall : ∀ fam : FeatureFamily, ∃ f1 f2, b1.famGet fam = some f1 ∧
      b2.famGet fam = some f2 ∧ f1.length = f2.length) :
    ((calculateMultiMetricSimilarity b1 b2).map Prod.fst = familyOrder) ∧
    (∀ fam f1 f2, b1.famGet fam = some f1 → b2.famGet fam = some f2 →
      (fam, max (cosineOfNormalized f1 f2)
        (max (inverseDistanceSim f1 f2) (pearsonMapped f1 f2))) ∈
        calculateMultiMetricSimilarity b1 b2) ∧
    ((validateConsensus ((calculateMultiMetricSimilarity b1 b2).map Prod.snd)).overall =
      listMean ((calculateMultiMetricSimilarity b1 b2).map Prod.snd)) ∧
    ((validateConsensus ((calculateMultiMetricSimilarity b1 b2).map Prod.snd)).svar =
      listVariance ((calculateMultiMetricSimilarity b1 b2).map Prod.snd)) := by
  obtain ⟨al, bl, hal, hbl, hll⟩ := hall .lbp
  obtain ⟨ag, bg, hag, hbg, hlg⟩ := hall .gradient
  obtain ⟨ar, br, har, hbr, hlr⟩ := hall .regional
  obtain ⟨ab, bb, hab, hbb, hlb⟩ := hall .gabor
  obtain ⟨ae, be, hae, hbe, hle⟩ := hall .edges
  have hcf : commonFamilies b1 b2 =
      [(.lbp, al, bl), (.gradient, ag, bg), (.regional, ar, br),
       (.gabor, ab, bb), (.edges, ae, be)] := by
    simp [commonFamilies, familyOrder, hal, hbl, hag, hbg, har, hbr, hab, hbb, hae, hbe]
  have hcalc : calculateMultiMetricSimilarity b1 b2 =
      [(.lbp, familySimilarity al bl), (.gradient, familySimilarity ag bg),
       (.regional, familySimilarity ar br), (.gabor, familySimilarity ab bb),
       (.edges, familySimilarity ae be)] := by
    simp only [calculateMultiMetricSimilarity, hcf]
    rw [if_neg (by simp [hll, hlg, hlr, hlb, hle])]
    rfl
  refine ⟨by rw [hcalc]; rfl, ?_, ?_, ?_⟩
  · intro fam f1 f2 hf1 hf2
    rw [hcalc]
    cases fam
    · rw [hal] at hf1
      rw [hbl] at hf2
      injection hf1 with hf1
      injection hf2 with hf2
      subst hf1
      subst hf2
      exact List.Mem.head _
    · rw [hag] at hf1
      rw [hbg] at hf2
      injection hf1 with hf1
      injection hf2 with hf2
      subst hf1
      subst hf2
      exact List.Mem.tail _ (List.Mem.head _)
    · rw [har] at hf1
      rw [hbr] at hf2
      injection hf1 with hf1
      injection hf2 with hf2
      subst hf1
      subst hf2
      exact List.Mem.tail _ (List.Mem.tail _ (List.Mem.head _))
    · rw [hab] at hf1
      rw [hbb] at hf2
      injection hf1 with hf1
      injection hf2 with hf2
      subst hf1
      subst hf2
      exact List.Mem.tail _ (List.Mem.tail _ (List.Mem.tail _ (List.Mem.head _)))
    · rw [hae] at hf1
      rw [hbe] at hf2
      injection hf1 with hf1
      injection hf2 with hf2
      subst hf1
      subst hf2
      exact List.Mem.tail _ (List.Mem.tail _ (List.Mem.tail _ (List.Mem.tail _
        (List.Mem.head _))))
  · exact (validate_overall_svar (by rw [hcalc]; simp)).1
  · exact (validate_overall_svar (by rw [hcalc]; simp)).2

theorem C2_witness :
    (∀ fam : FeatureFamily, ∃ f1 f2,
      FeatureBundle.famGet ⟨some [1], some [1], some [1], some [1], some [1]⟩ fam =
        some f1 ∧
      FeatureBundle.famGet ⟨some [1], some [1], some [1], some [1], some [1]⟩ fam =
        some f2 ∧ f1.length = f2.length) ∧
    (((calculateMultiMetricSimilarity
        ⟨some [1], some [1], some [1], some [1], some [1]⟩
        ⟨some [1], some [1], some [1], some [1], some [1]⟩).map Prod.fst =
          familyOrder) ∧
      (∀ fam f1 f2,
        FeatureBundle.famGet ⟨some [1], some [1], some [1], some [1], some [1]⟩ fam =
          some f1 →
        FeatureBundle.famGet ⟨some [1], some [1], some [1], some [1], some [1]⟩ fam =
          some f2 →
        (fam, max (cosineOfNormalized f1 f2)
          (max (inverseDistanceSim f1 f2) (pearsonMapped f1 f2))) ∈
          calculateMultiMetricSimilarity
            ⟨some [1], some [1], some [1], some [1], some [1]⟩
            ⟨some [1], some [1], some [1], some [1], some [1]⟩) ∧
      ((validateConsensus ((calculateMultiMetricSimilarity
          ⟨some [1], some [1], some [1], some [1], some [1]⟩
          ⟨some [1], some [1], some [1], some [1], some [1]⟩).map Prod.snd)).overall =
        listMean ((calculateMultiMetricSimilarity
          ⟨some [1], some [1], some [1], some [1], some [1]⟩
          ⟨some [1], some [1], some [1], some [1], some [1]⟩).map Prod.snd)) ∧
      ((validateConsensus ((calculateMultiMetricSimilarity
          ⟨some [1], some [1], some [1], some [1], some [1]⟩
          ⟨some [1], some [1], some [1], some [1], some [1]⟩).map Prod.snd)).svar =
        listVariance ((calculateMultiMetricSimilarity
          ⟨some [1], some [1], some [1], some [1], some [1]⟩
          ⟨some [1], some [1], some [1], some [1], some [1]⟩).map Prod.snd))) :=
  ⟨fun fam => match fam with
    | .lbp => ⟨[1], [1], rfl, rfl, rfl⟩
    | .gradient => ⟨[1], [1], rfl, rfl, rfl⟩
    | .regional => ⟨[1], [1], rfl, rfl, rfl⟩
    | .gabor => ⟨[1], [1], rfl, rfl, rfl⟩
    | .edges => ⟨[1], [1], rfl, rfl, rfl⟩,
   C2_similarity_structure _ _ (fun fam => match fam with
    | .lbp => ⟨[1], [1], rfl, rfl, rfl⟩
    | .gradient => ⟨[1], [1], rfl, rfl, rfl⟩
    | .regional => ⟨[1], [1], rfl, rfl, rfl⟩
    | .gabor => ⟨[1], [1], rfl, rfl, rfl⟩
    | .edges => ⟨[1], [1], rfl, rfl, rfl⟩)⟩
